import Mathlib

/-
Verification of the retrieval pipeline of the books-rag-bot repository.

This file gives a shallow embedding, in Lean 4, of the pure core of the
pipeline: the document segmenter (app/services/pdf_processor.py), the
chunking engine (app/services/chunking_engine.py), the embedding service
and its two cache tiers (app/services/embedding_service.py,
app/core/cache.py), the partitioned vector search
(app/services/vector_store.py), the text-recovery fallback
(app/services/text_retrieval.py) and the reranker / orchestrator
(app/services/rag_service.py).

Modelling conventions:
- Python floats (font sizes, similarity scores) are embedded as rationals.
- The external tokenizer (tiktoken cl100k_base) is an opaque parameter
  `tc : String → Nat`; concrete instantiations use a simple word counter.
- md5 cache keys are represented by the normalized text they are computed
  from (md5 is injective for the purposes of the model).
- Remote providers (OpenAI embeddings, Pinecone namespace queries, the
  relational chunk store) are oracles passed in as function / `Except`
  parameters; the per-call outcome of a fallible provider is an
  `Except String` value.
- Python in-place mutation (list.sort, dict update) is embedded by explicit
  state passing; for the orchestrator a small heap (list of lists indexed
  by references) makes Python object aliasing explicit.
- Stable `list.sort(key=..., reverse=True)` is embedded as insertion sort
  with a non-strict descending comparison, which computes the same stable
  descending order.
-/

namespace BooksRag

/-! Basic string helpers shared by several components.  Core `String`
functions such as `String.trim` recurse on byte positions, so the Python
string primitives (`strip`, `lower`, slicing, `in`) are re-implemented
here by structural recursion on the character list. -/

/-- Single-quote character, kept out of string literals. -/
def sq : String := String.singleton (Char.ofNat 39)

/-- Python `" ".join(xs)`. -/
def join_space (xs : List String) : String := String.intercalate " " xs

/-- Drop leading and trailing whitespace from a character list. -/
def ws_strip (l : List Char) : List Char :=
  ((l.dropWhile Char.isWhitespace).reverse.dropWhile Char.isWhitespace).reverse

/-- Python `s.strip()`. -/
def py_strip (s : String) : String := String.mk (ws_strip s.data)

/-- Python `s.lower()` (ASCII). -/
def py_lower (s : String) : String := String.mk (s.data.map Char.toLower)

/-- Python slicing `s[:n]`. -/
def py_take (n : ℕ) (s : String) : String := String.mk (s.data.take n)

/-- Does the character list `n` occur at the start of `h` (exact case)? -/
def chars_lead : List Char → List Char → Bool
  | [], _ => true
  | _ :: _, [] => false
  | a :: as, b :: bs => a == b && chars_lead as bs

/-- Does the character list `n` occur anywhere inside `h`? -/
def chars_within (n : List Char) : List Char → Bool
  | [] => chars_lead n []
  | c :: hs => chars_lead n (c :: hs) || chars_within n hs

/-- Python `needle in hay` on strings. -/
def has_sub (hay needle : String) : Bool := chars_within needle.data hay.data

/-- Python `text.strip().lower()`, the normalization used for cache keys. -/
def norm_key (s : String) : String := py_lower (py_strip s)

/-- Truncation of over-long embedding inputs: `text[:8000]`. -/
def truncate8000 (s : String) : String :=
  if 8000 < s.length then py_take 8000 s else s

/-! ## Document Segmenter (app/services/pdf_processor.py)

`ExtractedLine` and `Section` are the dataclasses of pdf_processor.py;
`detect_sections` and the heading heuristics are translated below.
-/

structure ExtractedLine where
  text : String
  font_size : ℚ
  is_bold : Bool
  page : ℕ
  y_position : ℚ
  deriving Repr, DecidableEq

structure Section where
  title : String
  paragraphs : List String
  start_page : ℕ
  end_page : ℕ
  deriving Repr, DecidableEq

/-- Case-insensitive ASCII prefix test, used for the `^Chapter` pattern
compiled with `re.IGNORECASE`. -/
def leads_ci : List Char → List Char → Bool
  | [], _ => true
  | _ :: _, [] => false
  | p :: ps, c :: cs => c.toLower == p.toLower && leads_ci ps cs

/-- Consume one or more ASCII digits; `none` when no digit leads. -/
def eat_digits (s : List Char) : Option (List Char) :=
  match s with
  | c :: _ => if c.isDigit then some (s.dropWhile Char.isDigit) else none
  | [] => none

/-- Consume one expected character. -/
def eat_one (c : Char) : List Char → Option (List Char)
  | x :: xs => if x == c then some xs else none
  | [] => none

/-- Is the head character whitespace? -/
def head_ws : List Char → Bool
  | c :: _ => c.isWhitespace
  | [] => false

/-- Regex `^Chapter\s+\d+` (IGNORECASE): `Chapter`, whitespace run, digit. -/
def pat_chapter (s : List Char) : Bool :=
  if leads_ci "chapter".data s then
    let rest := s.drop 7
    head_ws rest &&
      (match (rest.dropWhile Char.isWhitespace) with
       | c :: _ => c.isDigit
       | [] => false)
  else false

/-- Regex `^\d+\.\s`: digits, a dot, then whitespace. -/
def pat_num1 (s : List Char) : Bool :=
  match eat_digits s with
  | some r =>
    match eat_one (Char.ofNat 46) r with
    | some r2 => head_ws r2
    | none => false
  | none => false

/-- Regex `^\d+\.\d+\s`. -/
def pat_num2 (s : List Char) : Bool :=
  match eat_digits s with
  | some r =>
    match eat_one (Char.ofNat 46) r with
    | some r2 =>
      match eat_digits r2 with
      | some r3 => head_ws r3
      | none => false
    | none => false
  | none => false

/-- Regex `^\d+\.\d+\.\d+\s`. -/
def pat_num3 (s : List Char) : Bool :=
  match eat_digits s with
  | some r =>
    match eat_one (Char.ofNat 46) r with
    | some r2 =>
      match eat_digits r2 with
      | some r3 =>
        match eat_one (Char.ofNat 46) r3 with
        | some r4 =>
          match eat_digits r4 with
          | some r5 => head_ws r5
          | none => false
        | none => false
      | none => false
    | none => false
  | none => false

/-- Regex `^[A-Z\s]{10,}$` under IGNORECASE: at least ten characters, all
ASCII letters or whitespace (the case class collapses with IGNORECASE). -/
def pat_caps (s : List Char) : Bool :=
  decide (10 ≤ s.length) && s.all (fun c => c.isAlpha || c.isWhitespace)

/-- The `PDFProcessor._matches_heading_pattern`. -/
def matches_heading_pattern (text : String) : Bool :=
  let s := text.data
  pat_chapter s || pat_num1 s || pat_num2 s || pat_num3 s || pat_caps s

/-- The `PDFProcessor._is_heading`, with the median font size as a parameter
(`self.median_font_size`). -/
def is_heading (median : ℚ) (line : ExtractedLine) : Bool :=
  if median * 1.2 < line.font_size then true
  else if line.is_bold && decide (line.text.length < 120) then true
  else matches_heading_pattern (py_strip line.text)

/-- Start page of the next section: `sections[-1].end_page if sections else 1`. -/
def prev_end_page (acc : List Section) : ℕ :=
  match acc.getLast? with
  | some s => s.end_page
  | none => 1

/-- The loop of `PDFProcessor.detect_sections`, with the accumulated
sections, the open section title, its paragraphs so far, and the page of
the last processed line as explicit state. -/
def detect_sections_go (hd : ExtractedLine → Bool) (acc : List Section)
    (cur : Option String) (paras : List String) (last_page : ℕ) :
    List ExtractedLine → List Section
  | [] =>
    match cur with
    | some t => acc ++ [⟨t, paras, prev_end_page acc, last_page⟩]
    | none => acc
  | l :: rest =>
    if hd l then
      match cur with
      | some t =>
        detect_sections_go hd (acc ++ [⟨t, paras, prev_end_page acc, l.page⟩])
          (some l.text) [] l.page rest
      | none => detect_sections_go hd acc (some l.text) [] l.page rest
    else detect_sections_go hd acc cur (paras ++ [l.text]) l.page rest

/-- The `PDFProcessor.detect_sections`, parameterized by the heading
classifier (in the source, `self._is_heading`). -/
def detect_sections (hd : ExtractedLine → Bool) (lines : List ExtractedLine) :
    List Section :=
  detect_sections_go hd [] none [] 1 lines

/-- All line text carried by a list of sections, in order: each section
contributes its title (the heading line) followed by its paragraphs. -/
def sections_flat (ss : List Section) : List String :=
  ss.flatMap (fun s => s.title :: s.paragraphs)

/-- A line that no heading heuristic classifies as a heading. -/
def c1_line_plain : ExtractedLine := ⟨"abc.", 12, false, 1, 0⟩

/-- A line matching the `^Chapter\s+\d+` heading pattern. -/
def c1_line_heading : ExtractedLine := ⟨"Chapter 1", 12, false, 2, 0⟩


/-! ## Chunking Engine (app/services/chunking_engine.py)

The tokenizer (`self.encoding`, tiktoken cl100k_base) is the parameter
`tc`; `chunk_size`, `overlap` and `max_semantic_calls` are the settings
`DEFAULT_CHUNK_SIZE`, `CHUNK_OVERLAP`, `MAX_SEMANTIC_CALLS_PER_BOOK`
(500, 75, 30 by default, environment-overridable).  Concrete instances in
this file use `word_count` as the tokenizer. -/

inductive ChunkType where
  | fixed
  | semantic
  deriving Repr, DecidableEq

/-- The `Chunk` of chunking_engine.py with its metadata dict flattened.  The
`sec_start_page`/`sec_end_page` fields model the extra `start_page` /
`end_page` metadata keys that only the whole-group semantic path writes. -/
structure Chunk where
  text : String
  chunk_type : ChunkType
  token_count : ℕ
  author_id : ℕ
  book_id : ℕ
  section_title : String
  chunk_index : ℕ
  page_number : ℕ
  sec_start_page : Option ℕ := none
  sec_end_page : Option ℕ := none
  deriving Repr, DecidableEq

/-- Splitter of Python `s.split()`: maximal non-whitespace runs. -/
def ws_words_go (cur : List Char) : List Char → List (List Char)
  | [] => if cur.isEmpty then [] else [cur.reverse]
  | c :: rest =>
    if c.isWhitespace then
      if cur.isEmpty then ws_words_go [] rest
      else cur.reverse :: ws_words_go [] rest
    else ws_words_go (c :: cur) rest

/-- Python `s.split()` (no empty pieces). -/
def py_split_ws (s : String) : List String :=
  (ws_words_go [] s.data).map String.mk

/-- Whitespace-word count: the concrete deterministic tokenizer used to
instantiate the tokenizer parameter `tc` in witnesses/counterexamples. -/
def word_count (s : String) : ℕ := (py_split_ws s).length

/-- Did the accumulated (reversed) sentence just end in `.`, `!` or `?`
(the lookbehind of the regex)? -/
def sent_end : List Char → Bool
  | p :: _ => p == Char.ofNat 46 || p == Char.ofNat 33 || p == Char.ofNat 63
  | [] => false

/-- Regex split on whitespace preceded by sentence-ending punctuation.
When `skip` is set the scanner is inside the greedily consumed `\s+` run
that follows a split point (in that mode `cur` is empty). -/
def sent_split_go (skip : Bool) (cur : List Char) :
    List Char → List (List Char)
  | [] => [cur.reverse]
  | c :: rest =>
    if skip then
      if c.isWhitespace then sent_split_go true cur rest
      else sent_split_go false (c :: cur) rest
    else if c.isWhitespace && sent_end cur then
      cur.reverse :: sent_split_go true [] rest
    else sent_split_go false (c :: cur) rest

/-- The `ChunkingEngine._split_into_sentences`: regex split, strip each piece
and drop empties. -/
def split_into_sentences (text : String) : List String :=
  ((sent_split_go false [] text.data).map
      (fun cs => py_strip (String.mk cs))).filter (fun s => s ≠ "")

/-- The `ChunkingEngine._get_overlap_text`: the last two sentences of the
flushed buffer when they fit into the overlap budget, otherwise the last
sentence (the buffer is known non-empty at this call site). -/
def get_overlap_text (tc : String → ℕ) (overlap : ℕ)
    (buffer : List String) : Option String :=
  match buffer with
  | [] => none
  | _ :: _ =>
    let overlap_text := join_space (buffer.drop (buffer.length - 2))
    if tc overlap_text ≤ overlap then some overlap_text
    else buffer.getLast?

/-- The sentence loop of `ChunkingEngine._fixed_chunk_text`.  Each emitted
element keeps the flushed buffer together with its accumulated token count
and the chunk index (`Chunk` construction is a `map` over this, below).
The `ot = ""` test mirrors Python truthiness in
`[overlap_text, sentence] if overlap_text else [sentence]`. -/
def fixed_chunk_loop (tc : String → ℕ) (chunk_size overlap : ℕ)
    (buffer : List String) (buffer_tokens chunk_index : ℕ) :
    List String → List (List String × ℕ × ℕ)
  | [] => if buffer.isEmpty then [] else [(buffer, buffer_tokens, chunk_index)]
  | sentence :: rest =>
    if chunk_size < buffer_tokens + tc sentence ∧ buffer ≠ [] then
      let seeded :=
        match get_overlap_text tc overlap buffer with
        | some ot => if ot = "" then [sentence] else [ot, sentence]
        | none => [sentence]
      (buffer, buffer_tokens, chunk_index)
        :: fixed_chunk_loop tc chunk_size overlap seeded
            (tc (join_space seeded)) (chunk_index + 1) rest
    else
      fixed_chunk_loop tc chunk_size overlap (buffer ++ [sentence])
        (buffer_tokens + tc sentence) chunk_index rest

/-- The buffers emitted by `_fixed_chunk_text` for a given text. -/
def fixed_chunk_buffers (tc : String → ℕ) (chunk_size overlap : ℕ)
    (text : String) : List (List String × ℕ × ℕ) :=
  fixed_chunk_loop tc chunk_size overlap [] 0 0 (split_into_sentences text)

/-- Chunk construction of `_fixed_chunk_text`: joined buffer text,
accumulated token count, per-buffer chunk index, constant metadata. -/
def mk_fixed_chunk (author_id book_id : ℕ) (section_title : String)
    (chunk_type : ChunkType) (page_number : ℕ)
    (b : List String × ℕ × ℕ) : Chunk :=
  { text := join_space b.1, chunk_type := chunk_type, token_count := b.2.1,
    author_id := author_id, book_id := book_id,
    section_title := section_title, chunk_index := b.2.2,
    page_number := page_number }

/-- The `ChunkingEngine._fixed_chunk_text`. -/
def fixed_chunk_text (tc : String → ℕ) (chunk_size overlap : ℕ)
    (text : String) (author_id book_id : ℕ) (section_title : String)
    (chunk_type : ChunkType) (page_number : ℕ) : List Chunk :=
  (fixed_chunk_buffers tc chunk_size overlap text).map
    (mk_fixed_chunk author_id book_id section_title chunk_type page_number)

/-- The `ChunkingEngine._fixed_chunk_section`. -/
def fixed_chunk_section (tc : String → ℕ) (chunk_size overlap : ℕ)
    (s : Section) (author_id book_id : ℕ) : List Chunk :=
  fixed_chunk_text tc chunk_size overlap (join_space s.paragraphs)
    author_id book_id s.title ChunkType.fixed s.start_page

/-- The `while` loop of `ChunkingEngine._mock_semantic_split`. -/
def mock_semantic_split_go (start n : ℕ) : List (ℕ × ℕ) :=
  if start < n then
    (start, min (start + 3) n) :: mock_semantic_split_go (min (start + 3) n) n
  else []
termination_by n - start
decreasing_by omega

/-- The `ChunkingEngine._mock_semantic_split`: split points every three
paragraphs. -/
def mock_semantic_split (paragraphs : List String) : List (ℕ × ℕ) :=
  mock_semantic_split_go 0 paragraphs.length

/-- The `ChunkingEngine._semantic_chunk_section` (the `semantic_calls_used`
increment lives in the caller state, see `chunk_sections_go`). -/
def semantic_chunk_section (tc : String → ℕ) (chunk_size overlap : ℕ)
    (s : Section) (author_id book_id : ℕ) : List Chunk :=
  ((mock_semantic_split s.paragraphs).enum).flatMap (fun ise =>
    let chunk_paragraphs := (s.paragraphs.drop ise.2.1).take (ise.2.2 - ise.2.1)
    let chunk_text := join_space chunk_paragraphs
    if chunk_size < tc chunk_text then
      fixed_chunk_text tc chunk_size overlap chunk_text author_id book_id
        s.title ChunkType.semantic s.start_page
    else
      [{ text := chunk_text, chunk_type := ChunkType.semantic,
         token_count := tc chunk_text, author_id := author_id,
         book_id := book_id, section_title := s.title, chunk_index := ise.1,
         page_number := s.start_page, sec_start_page := some s.start_page,
         sec_end_page := some s.end_page }])

/-- The eight abstract-title keywords of `_should_use_semantic_chunking`. -/
def abstract_titles : List String :=
  ["introduction", "overview", "discussion", "theory",
   "foundations", "concepts", "background", "methodology"]

/-- The `ChunkingEngine._should_use_semantic_chunking`. -/
def should_use_semantic_chunking (max_semantic_calls semantic_calls_used : ℕ)
    (s : Section) (token_count : ℕ) : Bool :=
  if max_semantic_calls ≤ semantic_calls_used then false
  else if token_count < 1200 then false
  else abstract_titles.any (fun keyword => has_sub (py_lower s.title) keyword)

/-- The section loop of `ChunkingEngine.chunk_sections`, threading
`semantic_calls_used` and recording, per section, whether the semantic
strategy was chosen (second component). -/
def chunk_sections_go (tc : String → ℕ)
    (chunk_size overlap max_semantic_calls author_id book_id used : ℕ) :
    List Section → List Chunk × List Bool
  | [] => ([], [])
  | s :: rest =>
    if should_use_semantic_chunking max_semantic_calls used s
        (tc (join_space s.paragraphs)) then
      (semantic_chunk_section tc chunk_size overlap s author_id book_id
          ++ (chunk_sections_go tc chunk_size overlap max_semantic_calls
              author_id book_id (used + 1) rest).1,
        true :: (chunk_sections_go tc chunk_size overlap max_semantic_calls
            author_id book_id (used + 1) rest).2)
    else
      (fixed_chunk_section tc chunk_size overlap s author_id book_id
          ++ (chunk_sections_go tc chunk_size overlap max_semantic_calls
              author_id book_id used rest).1,
        false :: (chunk_sections_go tc chunk_size overlap max_semantic_calls
            author_id book_id used rest).2)

/-- The `ChunkingEngine.chunk_sections` (`semantic_calls_used` is reset to 0
at the start of each document). -/
def chunk_sections (tc : String → ℕ)
    (chunk_size overlap max_semantic_calls author_id book_id : ℕ)
    (sections : List Section) : List Chunk :=
  (chunk_sections_go tc chunk_size overlap max_semantic_calls
    author_id book_id 0 sections).1

/-! ## Embedding Service and caches (app/services/embedding_service.py,
app/core/cache.py)

The remote provider (`client.embeddings.create`) is the oracle `remote`;
`time.time()` is the parameter `now`; embeddings are lists of rationals.
Cache keys (md5 of `text.strip().lower()`) are represented by the
normalized text itself.  `EmbState` packages the session cache
(`EmbeddingService._session_cache`) and the persistent embeddings cache
(`PersistentCache.embeddings_cache`, value paired with its timestamp);
dict update is modelled by consing, with `List.lookup` returning the
newest binding.  Disk flushing of the persistent cache is not modelled
(it does not change lookup results within a process). -/

structure EmbEntry where
  vec : List ℚ
  timestamp : ℕ
  deriving Repr, DecidableEq

structure EmbState where
  session : List (String × List ℚ)
  persist : List (String × EmbEntry)
  deriving Repr, DecidableEq

/-- The `PersistentCache.max_age_seconds` with the default 24 hours. -/
def max_age_seconds : ℕ := 24 * 3600

/-- The `PersistentCache.get_embedding`: look up by normalized key, honour the
age limit, and delete an expired entry (second component is the updated
table). -/
def persist_get (now : ℕ) (persist : List (String × EmbEntry))
    (text : String) : Option (List ℚ) × List (String × EmbEntry) :=
  match persist.lookup (norm_key text) with
  | some e =>
    if now - e.timestamp < max_age_seconds then (some e.vec, persist)
    else (none, persist.filter (fun p => p.1 != norm_key text))
  | none => (none, persist)

/-- The `EmbeddingService.embed_text` (also the body of `embed_query`): session
tier, then persistent tier, then — on a double miss — strip, reject empty
text, truncate to 8000 characters, one remote call, and population of both
tiers.  The result carries the returned vector, the updated cache state,
and the number of remote provider calls made. -/
def embed_text (remote : String → List ℚ) (now : ℕ) (st : EmbState)
    (text : String) : Except String (List ℚ × EmbState × ℕ) :=
  match st.session.lookup (norm_key text) with
  | some v => .ok (v, st, 0)
  | none =>
    match persist_get now st.persist text with
    | (some v, persist2) =>
      .ok (v, { session := (norm_key text, v) :: st.session,
                persist := persist2 }, 0)
    | (none, persist2) =>
      if py_strip text = "" then .error "Empty text provided for embedding"
      else
        .ok (remote (truncate8000 (py_strip text)),
          { session := (norm_key text,
              remote (truncate8000 (py_strip text))) :: st.session,
            persist := (norm_key (truncate8000 (py_strip text)),
              ⟨remote (truncate8000 (py_strip text)), now⟩) :: persist2 }, 1)

/-- Batches of at most 100 texts: `range(0, len(processed_texts), 100)`. -/
def chunks100 : List α → List (List α)
  | [] => []
  | x :: xs => (x :: xs).take 100 :: chunks100 ((x :: xs).drop 100)
termination_by l => l.length
decreasing_by
  simp only [List.length_drop, List.length_cons]
  omega

/-- The `EmbeddingService.embed_batch`: strip, replace empty texts by
`"Empty content"`, truncate, then one remote call per 100-text sub-batch.
Neither cache tier is consulted or written: the state is returned
unchanged and the call count is the number of sub-batches. -/
def embed_batch (remote : String → List ℚ) (st : EmbState)
    (texts : List String) : List (List ℚ) × EmbState × ℕ :=
  (((chunks100 (texts.map (fun t =>
        truncate8000 (if py_strip t = "" then "Empty content"
          else py_strip t)))).map (fun batch => batch.map remote)).flatten,
    st,
    (chunks100 (texts.map (fun t =>
      truncate8000 (if py_strip t = "" then "Empty content"
        else py_strip t)))).length)

/-! ## Vector Store search (app/services/vector_store.py)

`VectorStore.search` fans one Pinecone query out per author namespace on a
thread pool and collects results `as_completed`.  The per-namespace
provider outcome is the oracle `provider : ℕ → Except String (List
SearchRes)`; the order in which futures complete is the explicit
`completion_order` argument (a permutation of the author id list).  The
final `all_results.sort(key=..., reverse=True)` is the stable sort of Python,
embedded as `List.insertionSort` with a non-strict descending
comparison. -/

/-- The result dict built by `query_namespace` from one Pinecone match
(id, score, and the stored metadata fields). -/
structure SearchRes where
  id : String
  score : ℚ
  author_id : ℕ
  book_id : ℕ
  section_title : String
  chunk_type : String
  token_count : ℕ
  page_number : ℕ
  chunk_id : String
  text : String
  deriving Repr, DecidableEq

/-- The `query_namespace` inside `VectorStore.search`: on success keep the
matches with `score >= score_threshold`; any exception is caught and
yields the empty result list (the error is only logged). -/
def query_namespace (threshold : ℚ)
    (outcome : Except String (List SearchRes)) : List SearchRes :=
  match outcome with
  | .ok ms => ms.filter (fun m => decide (threshold ≤ m.score))
  | .error _ => []

/-- Descending-by-score comparison used by the final merge sort. -/
def score_ge (a b : SearchRes) : Prop := b.score ≤ a.score

instance : DecidableRel score_ge :=
  fun a b => inferInstanceAs (Decidable (b.score ≤ a.score))

instance : IsTotal SearchRes score_ge := ⟨fun a b => le_total b.score a.score⟩

instance : IsTrans SearchRes score_ge := ⟨fun _ _ _ h1 h2 => le_trans h2 h1⟩

/-- Python `all_results.sort(key=lambda x: x["score"], reverse=True)`:
a stable descending sort. -/
def sort_by_score (l : List SearchRes) : List SearchRes :=
  l.insertionSort score_ge

/-- The `VectorStore.search`: concatenate the per-namespace filtered results
in completion order, sort by score descending, truncate to the limit. -/
def vs_search (provider : ℕ → Except String (List SearchRes))
    (completion_order : List ℕ) (limit : ℕ) (threshold : ℚ) :
    List SearchRes :=
  (sort_by_score ((completion_order.map
      (fun author_id => query_namespace threshold
        (provider author_id))).flatten)).take limit

/-- Did the namespace query succeed (no exception)? -/
def except_ok : Except String (List SearchRes) → Bool
  | .ok _ => true
  | .error _ => false

/-! ## Text Retrieval Service (app/services/text_retrieval.py)

`fetch_texts_for_results` batch-fetches chunk rows from the relational
store.  The batch query outcome is the oracle `dbres : Except String (List
DbRow)` (the row list on success, an exception otherwise); rows are keyed
by their `chunk_id` (a primary key, so assumed distinct).  Search hits
enter as dicts, so every key read through `.get` is an `Option` field. -/

/-- A search-result dict as consumed by the Text Retrieval Service. -/
structure FRes where
  id : String
  score : ℚ
  chunk_id : Option String
  text : Option String
  section_title : Option String
  book_id : Option ℕ
  page_number : Option ℕ
  chunk_index : Option ℕ
  chunk_type : Option String
  token_count : Option ℕ
  book_title : Option String
  deriving Repr, DecidableEq

/-- One row of the batched `chunks JOIN books` lookup. -/
structure DbRow where
  chunk_id : String
  text : String
  section_title : String
  chunk_index : ℕ
  chunk_type : String
  token_count : ℕ
  page_number : ℕ
  book_id : ℕ
  author_id : ℕ
  book_title : String
  deriving Repr, DecidableEq

/-- The known "unavailable" sentinel stored in some chunk rows. -/
def text_sentinel : String := "Text not available in Pinecone metadata"

/-- The `result.get("chunk_id", result.get("id"))`. -/
def cid_of (r : FRes) : String := r.chunk_id.getD r.id

/-- Synthetic text of `_create_fallback_result`, Doctor-Dolittle branch. -/
def dolittle_text : String :=
  "Doctor John Dolittle was a very famous doctor who lived in the town of Puddleby-on-the-Marsh. What made him special was his ability to talk to animals. He learned this skill from his parrot, Polynesia, who taught him the languages of many different creatures. The Doctor"
    ++ sq ++
  "s house was always full of animals - dogs, cats, rabbits, and even exotic creatures from far-off lands. His greatest adventures began when he decided to travel to Africa to help the monkeys who were suffering from a terrible disease. Along the way, he met many wonderful animal friends who helped him on his journey."

/-- Synthetic text, forgiveness-steps branch. -/
def steps_text : String :=
  "The four steps to forgiveness provide a clear pathway to healing and emotional freedom. Step 1: Acknowledge the hurt and pain you have experienced. Step 2: Feel and express your emotions safely. Step 3: Understand the situation from a broader perspective. Step 4: Choose to forgive and let go. Each step is essential and cannot be skipped. The process takes time and patience with yourself. Remember that forgiveness is not about condoning harmful behavior, but about freeing yourself from the burden of resentment and anger."

/-- Synthetic text, forgiving-yourself branch. -/
def yourself_text : String :=
  "Forgiving yourself can be one of the most challenging aspects of the forgiveness process. We often hold ourselves to impossibly high standards and struggle with guilt and shame over our mistakes. Self-forgiveness requires acknowledging that you are human and that making mistakes is part of the human experience. Start by treating yourself with the same compassion you would show a good friend. Recognize that your past actions do not define your worth as a person. Learn from your mistakes, make amends where possible, and commit to doing better in the future."

/-- Synthetic text, general forgiveness branch. -/
def forgiveness_text : String :=
  "Forgiveness is a powerful tool for healing that benefits both the forgiver and the forgiven. It does not mean forgetting what happened or excusing harmful behavior. Instead, forgiveness is about releasing the emotional burden of resentment and anger that can consume our thoughts and energy. When we forgive, we reclaim our power and choose peace over pain. The process involves understanding that holding onto anger hurts us more than it hurts the other person. Forgiveness is a gift we give ourselves."

/-- Synthetic text, generic branch (interpolates the section title). -/
def generic_text (section_title : String) : String :=
  "This section from " ++ sq ++ section_title ++ sq ++
  " contains valuable insights and practical guidance. The content explores important themes and provides readers with tools and perspectives that can be applied in daily life. The material is designed to help readers understand complex concepts and develop new skills for personal growth and development. Each chapter builds upon previous concepts while introducing new ideas and approaches."

/-- The branching of `_create_fallback_result` over section title and book
id (`book_id == 11` / `== 10` is false when the key is absent, because
Python compares the `"Unknown"` default). -/
def synthetic_text_of (section_title : String) (book_id : Option ℕ) :
    String :=
  if has_sub (py_lower section_title) "doctor dolittle"
      || book_id == some 11 then dolittle_text
  else if has_sub (py_lower section_title) "forgiv"
      || has_sub (py_lower section_title) "four"
      || book_id == some 10 then
    if has_sub (py_lower section_title) "step" then steps_text
    else if has_sub (py_lower section_title) "yourself" then yourself_text
    else forgiveness_text
  else generic_text section_title

/-- The `TextRetrievalService._create_fallback_result`. -/
def create_fallback_result (r : FRes) : FRes :=
  { r with text := some (synthetic_text_of
      (r.section_title.getD "Unknown Section") r.book_id) }

/-- The `chunk_id in chunk_data` / `chunk_data[chunk_id]` over the row list. -/
def find_row (rows : List DbRow) (cid : String) : Option DbRow :=
  rows.find? (fun row => row.chunk_id == cid)

/-- The found-row merge branch: take the database text (falling back to
the carried text of the hit, then the section title of the row, when the stored
text is the sentinel) and overwrite the metadata fields from the row. -/
def enrich_with_row (r : FRes) (row : DbRow) : FRes :=
  { r with
    text := some (if row.text = text_sentinel
      then r.text.getD row.section_title else row.text),
    section_title := some row.section_title,
    chunk_index := some row.chunk_index,
    chunk_type := some row.chunk_type,
    token_count := some row.token_count,
    page_number := some row.page_number,
    book_title := some row.book_title }

/-- The `TextRetrievalService.fetch_texts_for_results`: empty input returned
as-is; with no usable chunk ids, or when the batch query raises, every
hit gets the synthetic fallback text; otherwise each hit found in the
batch result is enriched from its row and each hit not found keeps its
own carried text (falling back to its section title, then a fixed
message). -/
def fetch_texts_for_results (dbres : Except String (List DbRow))
    (search_results : List FRes) : List FRes :=
  if search_results = [] then search_results
  else if (search_results.map cid_of).filter (fun c => c ≠ "") = [] then
    search_results.map create_fallback_result
  else
    match dbres with
    | .error _ => search_results.map create_fallback_result
    | .ok rows =>
      search_results.map (fun r =>
        match (if cid_of r ≠ "" then find_row rows (cid_of r) else none) with
        | some row => enrich_with_row r row
        | none =>
          { r with text := some (r.text.getD
              (r.section_title.getD "No text available")) })

/-! ## Reranker and Retrieval Orchestrator (app/services/rag_service.py,
app/core/cache.py)

`rerank_results` mutates its argument: it adds the four signal keys to
every result dict and sorts the list in place, returning the top-k slice.
The embedding is state-passing: `rerank_results` returns both the
post-mutation list (the new value of the argument object) and the
returned slice.  `RAGState` holds a heap (list of list objects indexed by
references) plus the search-result cache mapping the `(normalized query,
sorted author ids, limit)` key to a heap reference and a timestamp —
`search_only` stores the very list object it returns, so a cache hit
aliases the cached entry. -/

/-- A search-result dict as seen by the Reranker; the four signal fields
are absent (`none`) until `rerank_results` writes them. -/
structure RRes where
  id : String
  score : ℚ
  text : String
  section_title : String
  book_id : ℕ
  composite_score : Option ℚ := none
  keyword_overlap : Option ℕ := none
  exact_matches : Option ℕ := none
  title_relevance : Option ℕ := none
  deriving Repr, DecidableEq

/-- The `set(s.lower().split())`: deduplicated lower-cased words. -/
def words_of (s : String) : List String := (py_split_ws (py_lower s)).dedup

/-- The composite relevance score of `rerank_results`:
`0.4·vector + 0.25·keyword + 0.25·exact + 0.1·title`, each lexical signal
normalized by `max(len(query_words), 1)`. -/
def composite_score (base_score : ℚ)
    (keyword_overlap exact_matches title_relevance query_word_count : ℕ) :
    ℚ :=
  base_score * 0.4
    + ((keyword_overlap : ℚ) / ((max query_word_count 1 : ℕ) : ℚ)) * 0.25
    + ((exact_matches : ℚ) / ((max query_word_count 1 : ℕ) : ℚ)) * 0.25
    + ((title_relevance : ℚ) / ((max query_word_count 1 : ℕ) : ℚ)) * 0.1

/-- The `len(query_words.intersection(text_words))`. -/
def keyword_overlap_of (query_words : List String) (text : String) : ℕ :=
  (query_words.inter (words_of text)).length

/-- Count of query words longer than 3 characters occurring verbatim in
the lower-cased chunk text. -/
def exact_matches_of (query_words : List String) (text : String) : ℕ :=
  (query_words.filter (fun w =>
    decide (3 < w.length) && has_sub (py_lower text) w)).length

/-- Twice the count of query words longer than 3 characters occurring in
the lower-cased section title. -/
def title_relevance_of (query_words : List String) (title : String) : ℕ :=
  2 * (query_words.filter (fun w =>
    decide (3 < w.length) && has_sub (py_lower title) w)).length

/-- The per-dict mutation of the rerank loop: write the four signal keys. -/
def add_signals (query : String) (r : RRes) : RRes :=
  { r with
    composite_score := some (composite_score r.score
      (keyword_overlap_of (words_of query) r.text)
      (exact_matches_of (words_of query) r.text)
      (title_relevance_of (words_of query) r.section_title)
      (words_of query).length),
    keyword_overlap := some (keyword_overlap_of (words_of query) r.text),
    exact_matches := some (exact_matches_of (words_of query) r.text),
    title_relevance := some (title_relevance_of (words_of query)
      r.section_title) }

/-- Sort key `x["composite_score"]` (set on every dict before sorting). -/
def comp_key (r : RRes) : ℚ := r.composite_score.getD 0

/-- Descending-by-composite-score comparison. -/
def comp_ge (a b : RRes) : Prop := comp_key b ≤ comp_key a

instance : DecidableRel comp_ge :=
  fun a b => inferInstanceAs (Decidable (comp_key b ≤ comp_key a))

instance : IsTotal RRes comp_ge := ⟨fun a b => le_total (comp_key b) (comp_key a)⟩

instance : IsTrans RRes comp_ge := ⟨fun _ _ _ h1 h2 => le_trans h2 h1⟩

/-- The `RAGService.rerank_results`: first component is the argument list
after the in-place mutation (signals added, sorted descending by
composite score, stably), second is the returned `results[:top_k]`. -/
def rerank_results (query : String) (results : List RRes) (top_k : ℕ) :
    List RRes × List RRes :=
  ((results.map (add_signals query)).insertionSort comp_ge,
    ((results.map (add_signals query)).insertionSort comp_ge).take top_k)

/-- Orchestrator state: the heap assigns a list object to each reference
(a `ℕ` index); the search cache maps a key to `(reference, timestamp)`,
modelling that `PersistentCache.cache_search_results` stores the result
list by reference, not by copy. -/
structure RAGState where
  heap : List (List RRes)
  search_cache : List ((String × List ℕ × ℕ) × ℕ × ℕ)
  deriving Repr, DecidableEq

/-- The search-result cache key: normalized query, sorted author ids,
limit (the md5 of the canonical JSON is represented by the triple). -/
def search_key (query : String) (author_ids : List ℕ) (limit : ℕ) :
    String × List ℕ × ℕ :=
  (py_lower (py_strip query),
    author_ids.insertionSort (fun a b => a ≤ b), limit)

/-- The `PersistentCache.get_search_results`: a hit within the 1-hour TTL
returns the stored reference. -/
def cache_lookup (st : RAGState) (k : String × List ℕ × ℕ) (now : ℕ) :
    Option ℕ :=
  match st.search_cache.lookup k with
  | some rt => if now - rt.2 < 3600 then some rt.1 else none
  | none => none

/-- Dereference a heap reference. -/
def heap_get (st : RAGState) (r : ℕ) : List RRes := st.heap.getD r []

/-- Overwrite the list object behind a reference (in-place mutation). -/
def heap_set (st : RAGState) (r : ℕ) (v : List RRes) : RAGState :=
  { st with heap := st.heap.set r v }

/-- The `RAGService.search_only`, returning a reference to the result-list
object.  On a cache hit the cached reference itself is returned; on a
miss the pipeline output `pipeline` (embedding → vector search → text
fetch, abstracted as an input here) is allocated on the heap and the same
reference is stored in the cache and returned. -/
def search_only (pipeline : List RRes) (query : String)
    (author_ids : List ℕ) (limit : ℕ) (now : ℕ) (st : RAGState) :
    ℕ × RAGState :=
  match cache_lookup st (search_key query author_ids limit) now with
  | some ref => (ref, st)
  | none =>
    (st.heap.length,
      { heap := st.heap ++ [pipeline],
        search_cache := (search_key query author_ids limit,
          st.heap.length, now) :: st.search_cache })

/-- The retrieval part of `RAGService.generate_answer`: search (limit
`max(max_chunks * 2, 16)`), then — when results are non-empty — rerank
them in place, which mutates the very object the cache references. -/
def generate_answer_retrieval (pipeline : List RRes) (query : String)
    (author_ids : List ℕ) (max_chunks : ℕ) (now : ℕ) (st : RAGState) :
    List RRes × RAGState :=
  match search_only pipeline query author_ids (max (max_chunks * 2) 16)
      now st with
  | (ref, st1) =>
    if heap_get st1 ref = [] then ([], st1)
    else
      ((rerank_results query (heap_get st1 ref) max_chunks).2,
        heap_set st1 ref (rerank_results query (heap_get st1 ref)
          max_chunks).1)

/-! ## Theorems -/

theorem sections_flat_append (a b : List Section) :
    sections_flat (a ++ b) = sections_flat a ++ sections_flat b := by
  simp [sections_flat]

theorem detect_sections_go_flat_some (hd : ExtractedLine → Bool) :
    ∀ (lines : List ExtractedLine) (acc : List Section) (t : String)
      (paras : List String) (lp : ℕ),
      sections_flat (detect_sections_go hd acc (some t) paras lp lines)
        = sections_flat acc ++ t :: (paras ++ lines.map ExtractedLine.text) := by
  intro lines
  induction lines with
  | nil =>
    intro acc t paras lp
    simp [detect_sections_go, sections_flat_append, sections_flat]
  | cons l rest ih =>
    intro acc t paras lp
    by_cases hl : hd l
    · simp only [detect_sections_go, hl, if_pos, ih, sections_flat_append]
      simp [sections_flat]
    · simp only [detect_sections_go, hl, if_neg, Bool.false_eq_true,
        not_false_iff, ih]
      simp

theorem detect_sections_go_flat_none (hd : ExtractedLine → Bool) :
    ∀ (lines : List ExtractedLine) (acc : List Section)
      (paras : List String) (lp : ℕ),
      sections_flat (detect_sections_go hd acc none paras lp lines)
        = sections_flat acc
          ++ (lines.dropWhile (fun l => ! hd l)).map ExtractedLine.text := by
  intro lines
  induction lines with
  | nil =>
    intro acc paras lp
    simp [detect_sections_go]
  | cons l rest ih =>
    intro acc paras lp
    by_cases hl : hd l
    · simp only [detect_sections_go, hl, if_pos]
      rw [detect_sections_go_flat_some]
      simp [List.dropWhile, hl]
    · simp only [detect_sections_go, hl, if_neg, Bool.false_eq_true,
        not_false_iff, ih]
      simp [List.dropWhile, hl]

/-- C1 (amended): for every median font size and every line sequence, the
sections emitted by `detect_sections` exactly partition the *suffix of the
line sequence that starts at the first heading-classified line*: the
titles and paragraph lists, concatenated in order, equal the texts of that
suffix, with no line dropped and none duplicated.  Lines that precede the
first heading are discarded (so a document whose first line is a heading
is partitioned in full). -/
theorem detect_sections_partitions_suffix (median : ℚ)
    (lines : List ExtractedLine) :
    sections_flat (detect_sections (is_heading median) lines)
      = (lines.dropWhile (fun l => ! is_heading median l)).map
          ExtractedLine.text := by
  unfold detect_sections
  rw [detect_sections_go_flat_none]
  simp [sections_flat]

/-- A non-heading line followed by a heading line: the document has a
heading, yet the segmenter output loses the first line. -/


theorem c1_plain_not_heading : is_heading 12 c1_line_plain = false := by
  rw [is_heading, if_neg (by norm_num [c1_line_plain])]
  decide

theorem c1_chapter_is_heading : is_heading 12 c1_line_heading = true := by
  rw [is_heading, if_neg (by norm_num [c1_line_heading])]
  decide

/-- C1 counterexample: the document `[c1_line_plain, c1_line_heading]` has
at least one line classified as a heading, but the emitted sections do not
partition the whole input line sequence — the text of the first line is
dropped (content before the first heading has no owning section). -/
theorem c1_counterexample :
    is_heading 12 c1_line_heading = true ∧
      is_heading 12 c1_line_plain = false ∧
      sections_flat (detect_sections (is_heading 12)
          [c1_line_plain, c1_line_heading])
        ≠ [c1_line_plain, c1_line_heading].map ExtractedLine.text := by
  refine ⟨c1_chapter_is_heading, c1_plain_not_heading, ?_⟩
  have h : detect_sections (is_heading 12) [c1_line_plain, c1_line_heading]
      = [⟨c1_line_heading.text, [], 1, c1_line_heading.page⟩] := by
    rw [detect_sections, detect_sections_go, c1_plain_not_heading]
    rw [if_neg (by simp)]
    rw [detect_sections_go, c1_chapter_is_heading]
    simp [detect_sections_go, prev_end_page]
  rw [h]
  decide

/-! ### Chunking Engine: C5, C6, C7 -/

theorem fixed_chunk_loop_oversize (tc : String → ℕ) (cs ov : ℕ) :
    ∀ (sentences buffer : List String) (bt ci : ℕ),
      (cs < bt → buffer.length ≤ 2) →
      ∀ trip ∈ fixed_chunk_loop tc cs ov buffer bt ci sentences,
        cs < trip.2.1 → trip.1.length ≤ 2 := by
  intro sentences
  induction sentences with
  | nil =>
    intro buffer bt ci hinv trip htrip hlt
    by_cases hb : buffer.isEmpty
    · simp [fixed_chunk_loop, hb] at htrip
    · simp only [fixed_chunk_loop, hb, if_neg, Bool.false_eq_true,
        not_false_iff, List.mem_singleton] at htrip
      subst htrip
      exact hinv hlt
  | cons s rest ih =>
    intro buffer bt ci hinv trip htrip hlt
    simp only [fixed_chunk_loop] at htrip
    split at htrip
    · rcases List.mem_cons.1 htrip with h | h
      · subst h
        exact hinv hlt
      · refine ih _ _ _ ?_ trip h hlt
        intro _
        rcases hov : get_overlap_text tc ov buffer with _ | ot
        · simp [hov]
        · simp only [hov]
          by_cases he : ot = "" <;> simp [he]
    · rename_i hcond
      refine ih _ _ _ ?_ trip htrip hlt
      intro h2
      have hb : buffer = [] := by
        by_contra hne
        exact hcond ⟨by omega, hne⟩
      subst hb
      simp

/-- C5 (amended): every chunk emitted by the fixed-chunking algorithm has
`token_count` at most the configured chunk size, except chunks built from
at most two buffer pieces — a single sentence whose own token count
already exceeds the chunk size, or the overlap text carried from the
previous chunk joined with the single sentence that triggered the flush. -/
theorem fixed_chunk_token_bound (tc : String → ℕ) (cs ov : ℕ) (text : String)
    (author_id book_id : ℕ) (section_title : String) (ctype : ChunkType)
    (page : ℕ) :
    ∀ c ∈ fixed_chunk_text tc cs ov text author_id book_id section_title
        ctype page,
      c.token_count ≤ cs ∨
        ∃ trip ∈ fixed_chunk_buffers tc cs ov text,
          c = mk_fixed_chunk author_id book_id section_title ctype page trip ∧
            trip.1.length ≤ 2 := by
  intro c hc
  obtain ⟨trip, htrip, rfl⟩ := List.mem_map.1 hc
  by_cases h : trip.2.1 ≤ cs
  · exact Or.inl h
  · refine Or.inr ⟨trip, htrip, rfl, ?_⟩
    exact fixed_chunk_loop_oversize tc cs ov _ [] 0 0 (by intro h0; omega)
      trip htrip (by omega)

/-- The text used for the C5 counterexample and witness: three sentences
of six, six and one whitespace words. -/
def c5_text : String := "a b c d e f. g h i j k l. m."

/-- C5 counterexample: with the word-count tokenizer, chunk size 10 and
overlap budget 8, the fixed chunker emits a chunk of 12 tokens — above
the chunk size — whose text is the overlap sentence joined with the
flush-triggering sentence, not a single input sentence.  So the claimed
sole exception (a single oversized sentence) does not cover all oversized
chunks. -/
theorem c5_counterexample :
    ¬ (∀ c ∈ fixed_chunk_text word_count 10 8 c5_text 1 1 "T"
          ChunkType.fixed 1,
        c.token_count ≤ 10 ∨ c.text ∈ split_into_sentences c5_text) := by
  decide

/-- C5 witness: the amended bound instantiated at the oversized chunk of
`c5_text`. -/
theorem c5_witness :
    (mk_fixed_chunk 1 1 "T" ChunkType.fixed 1
        (["a b c d e f.", "g h i j k l."], 12, 1)).token_count ≤ 10 ∨
      ∃ trip ∈ fixed_chunk_buffers word_count 10 8 c5_text,
        mk_fixed_chunk 1 1 "T" ChunkType.fixed 1
            (["a b c d e f.", "g h i j k l."], 12, 1)
          = mk_fixed_chunk 1 1 "T" ChunkType.fixed 1 trip ∧
            trip.1.length ≤ 2 :=
  fixed_chunk_token_bound word_count 10 8 c5_text 1 1 "T" ChunkType.fixed 1
    (mk_fixed_chunk 1 1 "T" ChunkType.fixed 1
      (["a b c d e f.", "g h i j k l."], 12, 1)) (by decide)

theorem chunk_sections_go_flag_spec (tc : String → ℕ)
    (cs ov max_sem a b : ℕ) :
    ∀ (sections : List Section) (used i : ℕ), i < sections.length →
      (((chunk_sections_go tc cs ov max_sem a b used sections).2.getD i false
          = true) ↔
        (used + ((chunk_sections_go tc cs ov max_sem a b used
              sections).2.take i).count true < max_sem
          ∧ 1200 ≤ tc (join_space (sections.getD i ⟨"", [], 1, 1⟩).paragraphs)
          ∧ abstract_titles.any (fun keyword =>
              has_sub (py_lower (sections.getD i ⟨"", [], 1, 1⟩).title)
                keyword) = true)) := by
  intro sections
  induction sections with
  | nil => intro used i hi; simp at hi
  | cons s rest ih =>
    intro used i hi
    by_cases hsem : should_use_semantic_chunking max_sem used s
        (tc (join_space s.paragraphs)) = true
    · match i with
      | 0 =>
        simp only [chunk_sections_go]
        rw [if_pos hsem]
        simp only [List.getD_cons_zero, List.take_zero, List.count_nil,
          Nat.add_zero, List.getD_cons_zero]
        rw [should_use_semantic_chunking] at hsem
        split_ifs at hsem with h1 h2
        exact ⟨fun _ => ⟨by omega, by omega, hsem⟩, fun _ => trivial⟩
      | j + 1 =>
        have hj : j < rest.length := by
          simpa using Nat.lt_of_succ_lt_succ hi
        simp only [chunk_sections_go]
        rw [if_pos hsem]
        simp only [List.getD_cons_succ, List.take_succ_cons,
          List.count_cons_self]
        rw [ih (used + 1) j hj]
        exact and_congr_left fun _ => by omega
    · have hsem' : should_use_semantic_chunking max_sem used s
          (tc (join_space s.paragraphs)) = false := by
        simpa using hsem
      match i with
      | 0 =>
        simp only [chunk_sections_go]
        rw [if_neg (by simp [hsem'])]
        simp only [List.getD_cons_zero, List.take_zero, List.count_nil,
          Nat.add_zero, Bool.false_eq_true, false_iff]
        rw [should_use_semantic_chunking] at hsem'
        rintro ⟨ha, hb, hc⟩
        split_ifs at hsem' with h1 h2
        · omega
        · omega
        · simp [hc] at hsem'
      | j + 1 =>
        have hj : j < rest.length := by
          simpa using Nat.lt_of_succ_lt_succ hi
        simp only [chunk_sections_go]
        rw [if_neg (by simp [hsem'])]
        simp only [List.getD_cons_succ, List.take_succ_cons]
        rw [List.count_cons_of_ne (by simp)]
        rw [ih used j hj]

/-- C6: within one document (`chunk_sections` resets the counter at the
start), section `i` is chunked with the semantic strategy if and only if,
at the moment it is processed, the number of earlier sections chunked
semantically is still below the per-document budget, the section token
count is at least 1200, and the lower-cased title contains one of the
eight abstract keywords.  The Boolean trace is the second component of
`chunk_sections_go`, whose first component is `chunk_sections`. -/
theorem chunk_sections_semantic_gating (tc : String → ℕ)
    (cs ov max_sem a b : ℕ) (sections : List Section) (i : ℕ)
    (hi : i < sections.length) :
    ((chunk_sections_go tc cs ov max_sem a b 0 sections).2.getD i false
        = true) ↔
      (((chunk_sections_go tc cs ov max_sem a b 0 sections).2.take i).count
          true < max_sem
        ∧ 1200 ≤ tc (join_space (sections.getD i ⟨"", [], 1, 1⟩).paragraphs)
        ∧ abstract_titles.any (fun keyword =>
            has_sub (py_lower (sections.getD i ⟨"", [], 1, 1⟩).title)
              keyword) = true) := by
  have h := chunk_sections_go_flag_spec tc cs ov max_sem a b sections 0 i hi
  simpa using h

/-- Section used by the C6 witness. -/
def c6_section : Section := ⟨"Introduction", ["x"], 1, 1⟩

/-- C6 witness: the gating equivalence instantiated at a one-section
document whose (mock-tokenized) length is 1500 and whose title contains
the keyword `introduction`. -/
theorem c6_witness :
    (((chunk_sections_go (fun _ => 1500) 500 75 30 1 1 0
          [c6_section]).2.getD 0 false = true) ↔
      ((((chunk_sections_go (fun _ => 1500) 500 75 30 1 1 0
            [c6_section]).2.take 0).count true < 30)
        ∧ 1200 ≤ (fun _ => 1500) (join_space
            ([c6_section].getD 0 ⟨"", [], 1, 1⟩).paragraphs)
        ∧ abstract_titles.any (fun keyword =>
            has_sub (py_lower ([c6_section].getD 0 ⟨"", [], 1, 1⟩).title)
              keyword) = true)) :=
  chunk_sections_semantic_gating (fun _ => 1500) 500 75 30 1 1
    [c6_section] 0 (by decide)

theorem fixed_chunk_loop_indices (tc : String → ℕ) (cs ov : ℕ) :
    ∀ (sentences buffer : List String) (bt ci : ℕ),
      (fixed_chunk_loop tc cs ov buffer bt ci sentences).map
          (fun t => t.2.2)
        = List.range' ci
            (fixed_chunk_loop tc cs ov buffer bt ci sentences).length := by
  intro sentences
  induction sentences with
  | nil =>
    intro buffer bt ci
    by_cases hb : buffer.isEmpty <;> simp [fixed_chunk_loop, hb, List.range']
  | cons s rest ih =>
    intro buffer bt ci
    simp only [fixed_chunk_loop]
    split
    · simp only [List.map_cons, List.length_cons, List.range']
      rw [ih]
    · exact ih _ _ _

theorem fixed_chunk_text_page (tc : String → ℕ) (cs ov : ℕ) (text : String)
    (author_id book_id : ℕ) (section_title : String) (ctype : ChunkType)
    (page : ℕ) :
    ∀ c ∈ fixed_chunk_text tc cs ov text author_id book_id section_title
        ctype page, c.page_number = page := by
  intro c hc
  obtain ⟨trip, _, rfl⟩ := List.mem_map.1 hc
  rfl

/-- C7 (amended): for every section chunked with the fixed strategy, the
chunk indices in emission order are exactly `0, 1, 2, …` and every chunk
page number equals the section start page; for the semantic strategy the
page-number part still holds, but the per-section index guarantee does
not (see the counterexample): indices restart inside each oversized
paragraph group. -/
theorem chunk_indices_and_pages (tc : String → ℕ) (cs ov : ℕ) (s : Section)
    (a b : ℕ) :
    ((fixed_chunk_section tc cs ov s a b).map Chunk.chunk_index
        = List.range (fixed_chunk_section tc cs ov s a b).length)
      ∧ (∀ c ∈ fixed_chunk_section tc cs ov s a b,
          c.page_number = s.start_page)
      ∧ (∀ c ∈ semantic_chunk_section tc cs ov s a b,
          c.page_number = s.start_page) := by
  refine ⟨?_, ?_, ?_⟩
  · rw [fixed_chunk_section, fixed_chunk_text, List.map_map,
      List.length_map, List.range_eq_range']
    exact fixed_chunk_loop_indices tc cs ov _ _ _ _
  · intro c hc
    exact fixed_chunk_text_page tc cs ov _ a b s.title ChunkType.fixed
      s.start_page c hc
  · intro c hc
    rw [semantic_chunk_section] at hc
    obtain ⟨ise, _, hmem⟩ := List.mem_flatMap.1 hc
    by_cases hbig :
        cs < tc (join_space ((s.paragraphs.drop ise.2.1).take
          (ise.2.2 - ise.2.1)))
    · rw [if_pos hbig] at hmem
      exact fixed_chunk_text_page tc cs ov _ a b s.title ChunkType.semantic
        s.start_page c hmem
    · rw [if_neg hbig] at hmem
      rw [List.mem_singleton] at hmem
      subst hmem
      rfl

/-- Section used by the C7 witness. -/
def c7_wit_section : Section := ⟨"Summary", ["hello world"], 3, 4⟩

/-- C7 witness: the page-number guarantee instantiated at the single
chunk that fixed chunking emits for `c7_wit_section`. -/
theorem c7_witness :
    (mk_fixed_chunk 1 1 "Summary" ChunkType.fixed 3
        (["hello world"], 2, 0)).page_number = 3 :=
  (chunk_indices_and_pages word_count 500 75 c7_wit_section 1 1).2.1
    (mk_fixed_chunk 1 1 "Summary" ChunkType.fixed 3 (["hello world"], 2, 0))
    (by decide)

/-- Section used by the C7 counterexample: four paragraphs, so the mock
semantic split yields two groups, both over the (tiny) chunk size. -/
def c7_section : Section := ⟨"Intro", ["a b c", "d e f", "g h i", "j k l"], 5, 6⟩

/-- C7 counterexample: on a semantically chunked section with two
oversized paragraph groups, `_fixed_chunk_text` is re-invoked per group
and restarts the chunk index at 0, so the chunks of the section carry indices
`[0, 0]` — not strictly increasing and duplicated. -/
theorem c7_counterexample :
    ((semantic_chunk_section word_count 2 1 c7_section 1 1).map
        Chunk.chunk_index = [0, 0])
      ∧ ¬ List.Pairwise (fun x y => x < y)
          ((semantic_chunk_section word_count 2 1 c7_section 1 1).map
            Chunk.chunk_index) := by
  have hsplit : mock_semantic_split c7_section.paragraphs = [(0, 3), (3, 4)] := by
    rw [mock_semantic_split]
    rw [show c7_section.paragraphs.length = 4 from rfl]
    unfold mock_semantic_split_go
    norm_num
    unfold mock_semantic_split_go
    norm_num
    unfold mock_semantic_split_go
    norm_num
  have h : (semantic_chunk_section word_count 2 1 c7_section 1 1).map
      Chunk.chunk_index = [0, 0] := by
    simp only [semantic_chunk_section]
    rw [hsplit]
    decide
  refine ⟨h, ?_⟩
  rw [h]
  decide

/-! ### Embedding Service: C2 -/

theorem chunks100_length {α : Type} (l : List α) :
    (chunks100 l).length = (l.length + 99) / 100 := by
  induction l using chunks100.induct with
  | case1 => simp [chunks100]
  | case2 x xs ih =>
    rw [show chunks100 (x :: xs)
        = (x :: xs).take 100 :: chunks100 ((x :: xs).drop 100) from by
      rw [chunks100]]
    simp only [List.length_cons, List.length_drop] at *
    omega

/-- C2 (amended): `embed_text` consults the session tier and then the
persistent tier before any remote call — a second call with identical
normalized text returns the identical cached vector, leaves the cache
state unchanged and performs zero remote calls, and a miss in both tiers
triggers exactly one remote call and populates both tiers.  `embed_batch`,
however, consults neither cache tier: it leaves the cache state unchanged,
its output is independent of the cache state, and it performs one remote
call per 100-text sub-batch unconditionally. -/
theorem embedding_cache_behavior (remote : String → List ℚ) (now : ℕ)
    (st : EmbState) (t t2 : String) (v : List ℚ) (st2 : EmbState) (c : ℕ)
    (texts : List String) (stB : EmbState) :
    (embed_text remote now st t = .ok (v, st2, c) →
      norm_key t2 = norm_key t →
      embed_text remote now st2 t2 = .ok (v, st2, 0))
    ∧ (st.session.lookup (norm_key t) = none →
      (persist_get now st.persist t).1 = none →
      py_strip t ≠ "" →
      embed_text remote now st t
        = .ok (remote (truncate8000 (py_strip t)),
            { session := (norm_key t,
                remote (truncate8000 (py_strip t))) :: st.session,
              persist := (norm_key (truncate8000 (py_strip t)),
                ⟨remote (truncate8000 (py_strip t)), now⟩)
                :: (persist_get now st.persist t).2 }, 1))
    ∧ ((embed_batch remote stB texts).2.1 = stB
      ∧ (embed_batch remote stB texts).2.2 = (texts.length + 99) / 100
      ∧ (embed_batch remote stB texts).1 = (embed_batch remote st texts).1) := by
  refine ⟨?_, ?_, rfl, ?_, rfl⟩
  · intro h1 hnorm
    rcases hlook : st.session.lookup (norm_key t) with _ | v0
    · rcases hp : persist_get now st.persist t with ⟨pv, p2⟩
      rcases pv with _ | v1
      · by_cases hempty : py_strip t = ""
        · unfold embed_text at h1
          rw [hlook, hp] at h1
          simp only [if_pos hempty] at h1
          exact absurd h1 (by simp)
        · unfold embed_text at h1
          rw [hlook, hp] at h1
          simp only [if_neg hempty, Except.ok.injEq, Prod.mk.injEq] at h1
          obtain ⟨rfl, rfl, rfl⟩ := h1
          unfold embed_text
          rw [hnorm]
          simp [List.lookup]
      · unfold embed_text at h1
        rw [hlook, hp] at h1
        simp only [Except.ok.injEq, Prod.mk.injEq] at h1
        obtain ⟨rfl, rfl, rfl⟩ := h1
        unfold embed_text
        rw [hnorm]
        simp [List.lookup]
    · unfold embed_text at h1
      rw [hlook] at h1
      simp only [Except.ok.injEq, Prod.mk.injEq] at h1
      obtain ⟨rfl, rfl, rfl⟩ := h1
      unfold embed_text
      rw [hnorm, hlook]
  · intro h1 h2 h3
    have hp : persist_get now st.persist t
        = (none, (persist_get now st.persist t).2) := by
      rw [← h2]
    unfold embed_text
    rw [h1, hp]
    simp only [if_neg h3]
  · simp [embed_batch, chunks100_length]

/-- Remote oracle for the concrete C2 instances. -/
def c2_remote : String → List ℚ := fun _ => [1]

/-- Cache state holding the vector for normalized text `hello` in both
tiers — the state produced by a first `embed_text "hello"` call from the
empty state at time 0. -/
def c2_state1 : EmbState :=
  { session := [("hello", [1])], persist := [("hello", ⟨[1], 0⟩)] }

/-- C2 counterexample: after `embed_text` has populated both cache tiers
for the normalized text `hello`, a second request for the same normalized
text made through `embed_batch` still performs one remote provider call —
not zero — because `embed_batch` consults neither cache tier.  This
refutes the claim that every embedding request (single or batch) consults
both tiers before any remote call and that a repeated identical request
performs zero remote calls. -/
theorem c2_counterexample :
    embed_text c2_remote 0 ⟨[], []⟩ "hello" = .ok ([1], c2_state1, 1)
      ∧ (embed_batch c2_remote c2_state1 ["hello"]).2.2 = 1
      ∧ (1 : ℕ) ≠ 0 := by
  refine ⟨by rfl, ?_, by decide⟩
  have hmap : ["hello"].map (fun t =>
      truncate8000 (if py_strip t = "" then "Empty content"
        else py_strip t)) = ["hello"] := by decide
  have hchunks : chunks100 ["hello"] = [["hello"]] := by
    rw [chunks100.eq_2]
    rw [show (["hello"] : List String).drop 100 = [] from rfl]
    rw [chunks100.eq_1]
    rfl
  show (chunks100 (["hello"].map (fun t =>
      truncate8000 (if py_strip t = "" then "Empty content"
        else py_strip t)))).length = 1
  rw [hmap, hchunks]
  rfl

/-- C2 witness: the amended description instantiated — a repeated call
with differently-cased, padded text (same normalized text) returns the
cached vector with zero remote calls, and a double miss performs exactly
one call. -/
theorem c2_witness :
    embed_text c2_remote 0 c2_state1 "HELLO " = .ok ([1], c2_state1, 0)
      ∧ embed_text c2_remote 5 ⟨[], []⟩ "abc"
        = .ok (c2_remote (truncate8000 (py_strip "abc")),
            { session := [(norm_key "abc",
                c2_remote (truncate8000 (py_strip "abc")))],
              persist := [(norm_key (truncate8000 (py_strip "abc")),
                ⟨c2_remote (truncate8000 (py_strip "abc")), 5⟩)] }, 1) :=
  ⟨(embedding_cache_behavior c2_remote 0 ⟨[], []⟩ "hello" "HELLO " [1]
      c2_state1 1 [] ⟨[], []⟩).1 (by rfl) (by decide),
    (embedding_cache_behavior c2_remote 5 ⟨[], []⟩ "abc" "abc" []
      ⟨[], []⟩ 0 [] ⟨[], []⟩).2.1 (by decide) (by decide) (by decide)⟩

/-! ### Vector Store: C3, C4 -/

theorem sort_by_score_perm (l : List SearchRes) :
    List.Perm (sort_by_score l) l :=
  List.perm_insertionSort score_ge l

theorem sort_by_score_sorted (l : List SearchRes) :
    (sort_by_score l).Sorted score_ge :=
  List.sorted_insertionSort score_ge l

theorem perm_flatten_of_perm {α : Type} :
    ∀ {l1 l2 : List (List α)}, List.Perm l1 l2 →
      List.Perm l1.flatten l2.flatten := by
  intro l1 l2 h
  induction h with
  | nil => exact List.Perm.refl _
  | cons x h ih =>
    simp only [List.flatten_cons]
    exact ih.append_left x
  | swap x y l =>
    simp only [List.flatten_cons]
    rw [← List.append_assoc, ← List.append_assoc]
    exact List.Perm.append_right _ List.perm_append_comm
  | trans h1 h2 ih1 ih2 => exact ih1.trans ih2

theorem sorted_perm_eq_of_distinct :
    ∀ {l1 l2 : List SearchRes}, List.Perm l1 l2 → l1.Sorted score_ge →
      l2.Sorted score_ge → l1.Pairwise (fun a b => a.score ≠ b.score) →
      l1 = l2 := by
  intro l1
  induction l1 with
  | nil =>
    intro l2 hp _ _ _
    exact (List.Perm.eq_nil hp.symm).symm
  | cons a t ih =>
    intro l2 hp hs1 hs2 hd
    cases l2 with
    | nil => exact absurd (List.Perm.eq_nil hp) (by simp)
    | cons b u =>
      have hab : a = b := by
        by_contra hne
        have ha2 : a ∈ b :: u := hp.mem_iff.1 (List.mem_cons_self a t)
        have hau : a ∈ u := by
          rcases List.mem_cons.1 ha2 with h | h
          · exact absurd h hne
          · exact h
        have hb1 : b ∈ a :: t := hp.mem_iff.2 (List.mem_cons_self b u)
        have hbt : b ∈ t := by
          rcases List.mem_cons.1 hb1 with h | h
          · exact absurd h.symm hne
          · exact h
        have h1 : score_ge a b := List.rel_of_sorted_cons hs1 b hbt
        have h2 : score_ge b a := List.rel_of_sorted_cons hs2 a hau
        have heq : a.score = b.score := le_antisymm h2 h1
        exact (List.pairwise_cons.1 hd).1 b hbt heq
      subst hab
      rw [ih hp.cons_inv hs1.of_cons hs2.of_cons (List.pairwise_cons.1 hd).2]

/-- C3 (amended): for a fixed set of per-namespace hit lists whose
above-threshold hits have pairwise distinct scores, the merged,
threshold-filtered, score-sorted, truncated output of `VectorStore.search`
is identical for every completion order of the concurrent namespace
queries.  (With tied scores the stable merge leaks the completion order —
see the counterexample.) -/
theorem vs_search_order_determinism
    (provider : ℕ → Except String (List SearchRes)) (o1 o2 : List ℕ)
    (limit : ℕ) (threshold : ℚ) (hperm : List.Perm o1 o2)
    (hdist : ((o1.map (fun a => query_namespace threshold
        (provider a))).flatten).Pairwise (fun x y => x.score ≠ y.score)) :
    vs_search provider o1 limit threshold
      = vs_search provider o2 limit threshold := by
  have hjoin : List.Perm
      (o1.map (fun a => query_namespace threshold (provider a))).flatten
      (o2.map (fun a => query_namespace threshold (provider a))).flatten :=
    perm_flatten_of_perm (hperm.map _)
  have hps : List.Perm
      (sort_by_score ((o1.map (fun a => query_namespace threshold
        (provider a))).flatten))
      (sort_by_score ((o2.map (fun a => query_namespace threshold
        (provider a))).flatten)) :=
    ((sort_by_score_perm _).trans hjoin).trans (sort_by_score_perm _).symm
  have hd1 : (sort_by_score ((o1.map (fun a => query_namespace threshold
        (provider a))).flatten)).Pairwise (fun x y => x.score ≠ y.score) :=
    ((sort_by_score_perm _).pairwise_iff (fun h => Ne.symm h)).2 hdist
  rw [vs_search, vs_search,
    sorted_perm_eq_of_distinct hps (sort_by_score_sorted _)
      (sort_by_score_sorted _) hd1]

/-- A hit for namespace 1 with score 1 (C3 concrete instances). -/
def c3_hit1 : SearchRes := ⟨"h1", 1, 1, 1, "", "", 0, 1, "h1", ""⟩

/-- A hit for namespace 2 with the same score 1. -/
def c3_hit2 : SearchRes := ⟨"h2", 1, 2, 1, "", "", 0, 1, "h2", ""⟩

/-- Fixed per-namespace hit lists with a score tie across namespaces. -/
def c3_provider : ℕ → Except String (List SearchRes) :=
  fun author_id => if author_id = 1 then .ok [c3_hit1] else .ok [c3_hit2]

/-- C3 counterexample: with fixed per-namespace results whose scores tie,
two completion orders of the same namespace set produce differently
ordered outputs — the stable sort preserves arrival order among equal
scores, so concurrency does leak into the output order. -/
theorem c3_counterexample :
    List.Perm [1, 2] [2, 1]
      ∧ vs_search c3_provider [1, 2] 2 1 ≠ vs_search c3_provider [2, 1] 2 1 := by
  constructor
  · decide
  · decide

/-- A hit for namespace 2 with score 2, distinct from the score of `c3_hit1`. -/
def c3_hit3 : SearchRes := ⟨"h3", 2, 2, 1, "", "", 0, 1, "h3", ""⟩

/-- Fixed per-namespace hit lists with pairwise distinct scores. -/
def c3_provider2 : ℕ → Except String (List SearchRes) :=
  fun author_id => if author_id = 1 then .ok [c3_hit1] else .ok [c3_hit3]

/-- C3 witness: with distinct scores the two completion orders agree. -/
theorem c3_witness :
    vs_search c3_provider2 [1, 2] 2 1 = vs_search c3_provider2 [2, 1] 2 1 :=
  vs_search_order_determinism c3_provider2 [1, 2] [2, 1] 2 1
    (by decide) (by decide)

/-- C4: if some namespace queries raise while others succeed, `search`
still returns normally: the result equals the search over the succeeding
namespaces alone (failed namespaces contribute nothing, their exception is
caught inside `query_namespace`), and the result never exceeds the
requested limit (it may hold fewer hits). -/
theorem vs_search_partial_failure
    (provider : ℕ → Except String (List SearchRes)) (order : List ℕ)
    (limit : ℕ) (threshold : ℚ)
    (_hfail : ∃ a ∈ order, except_ok (provider a) = false)
    (_hok : ∃ b ∈ order, except_ok (provider b) = true) :
    vs_search provider order limit threshold
        = vs_search provider
            (order.filter (fun a => except_ok (provider a))) limit threshold
      ∧ (vs_search provider order limit threshold).length ≤ limit := by
  constructor
  · have hjoin : (order.map (fun a => query_namespace threshold
          (provider a))).flatten
        = ((order.filter (fun a => except_ok (provider a))).map
            (fun a => query_namespace threshold (provider a))).flatten := by
      clear _hfail _hok
      induction order with
      | nil => rfl
      | cons a rest ih =>
        by_cases h : except_ok (provider a) = true
        · simp only [List.map_cons, List.flatten_cons, List.filter_cons, h,
            if_pos, ih]
        · have h' : except_ok (provider a) = false := by simpa using h
          have hq : query_namespace threshold (provider a) = [] := by
            rcases hpa : provider a with e | v
            · simp [query_namespace]
            · rw [hpa] at h'
              simp [except_ok] at h'
          simp only [List.map_cons, List.flatten_cons, List.filter_cons, h',
            Bool.false_eq_true, if_neg, hq, List.nil_append, ih,
            not_false_iff]
    rw [vs_search, vs_search, hjoin]
  · rw [vs_search]
    simp only [List.length_take]
    exact min_le_left _ _

/-- The single indexed hit of author 7 (C4 witness). -/
def c4_hit : SearchRes := ⟨"h7", 1, 7, 1, "", "", 0, 1, "h7", ""⟩

/-- Author 7 has content; namespace 8 is unreachable. -/
def c4_provider : ℕ → Except String (List SearchRes) :=
  fun a => if a = 7 then .ok [c4_hit] else .error "unreachable"

/-- C4 witness: searching authors `[7, 8]` with namespace 8 failing
returns the author-7 results, within the limit. -/
theorem c4_witness :
    (vs_search c4_provider [7, 8] 5 1
        = vs_search c4_provider
            ([7, 8].filter (fun a => except_ok (c4_provider a))) 5 1)
      ∧ (vs_search c4_provider [7, 8] 5 1).length ≤ 5 :=
  vs_search_partial_failure c4_provider [7, 8] 5 1 (by decide) (by decide)

/-! ### Text Retrieval: C8 -/

/-- C8 (amended): `fetch_texts_for_results` is total (never raises) and
the synthetic placeholder generated from section title and book id is
applied to every hit exactly when the whole batch lookup raises (or no
hit carries a usable chunk id — covered by the same fallback path).  A
hit *individually* absent from the batch result does not get the
synthetic placeholder: it keeps its own carried text, falling back to its
section title and then a fixed message; a found row whose stored text is
the sentinel is replaced by the carried text of the hit, not by a synthetic
placeholder. -/
theorem fetch_texts_fallback_behavior (e : String) (rows : List DbRow)
    (results : List FRes) (i : ℕ) (r : FRes)
    (hr : results[i]? = some r)
    (hcid : ∃ r2 ∈ results, cid_of r2 ≠ "") :
    (fetch_texts_for_results (.error e) results
        = results.map create_fallback_result)
      ∧ (cid_of r = "" ∨ find_row rows (cid_of r) = none →
          (fetch_texts_for_results (.ok rows) results)[i]?
            = some { r with text := some (r.text.getD
                (r.section_title.getD "No text available")) })
      ∧ (∀ row, cid_of r ≠ "" → find_row rows (cid_of r) = some row →
          row.text = text_sentinel →
          (fetch_texts_for_results (.ok rows) results)[i]?
              = some (enrich_with_row r row)
            ∧ (enrich_with_row r row).text
              = some (r.text.getD row.section_title)) := by
  have h0 : results ≠ [] := by
    intro h
    subst h
    simp at hr
  have h1 : (results.map cid_of).filter (fun c => c ≠ "") ≠ [] := by
    obtain ⟨r2, hr2, hcne⟩ := hcid
    intro hfil
    rw [List.filter_eq_nil_iff] at hfil
    have h2 := hfil (cid_of r2) (List.mem_map_of_mem cid_of hr2)
    simp at h2
    exact hcne h2
  refine ⟨?_, ?_, ?_⟩
  · unfold fetch_texts_for_results
    by_cases ha : results = []
    · subst ha
      simp
    · rw [if_neg ha]
      by_cases hb : (results.map cid_of).filter (fun c => c ≠ "") = []
      · rw [if_pos hb]
      · rw [if_neg hb]
  · intro hmiss
    unfold fetch_texts_for_results
    rw [if_neg h0, if_neg h1]
    rw [List.getElem?_map, hr, Option.map_some']
    rcases hmiss with hc | hf
    · rw [if_neg (by simpa using hc)]
    · by_cases hc : cid_of r = ""
      · rw [if_neg (by simpa using hc)]
      · rw [if_pos hc, hf]
  · intro row hcne hfind hsent
    constructor
    · unfold fetch_texts_for_results
      rw [if_neg h0, if_neg h1]
      rw [List.getElem?_map, hr, Option.map_some']
      rw [if_pos hcne, hfind]
    · unfold enrich_with_row
      rw [if_pos hsent]

/-- Search hit used by the C8 instances: absent from the batch result in
the counterexample, matched by a sentinel row in the witness. -/
def c8_hit : FRes :=
  ⟨"c1", 1, some "c1", some "pinecone text", some "Some Topic", some 5,
    some 1, none, none, none, none⟩

/-- C8 counterexample: the batch query succeeds but returns no row for
the chunk id of the hit; the hit is returned with its own carried text — not
with the synthetic placeholder generated from its section title and book
id — refuting the claim that every hit absent from the batch result
receives the synthetic placeholder. -/
theorem c8_counterexample :
    (fetch_texts_for_results (.ok []) [c8_hit]).map (fun r => r.text)
        = [some "pinecone text"]
      ∧ some (synthetic_text_of "Some Topic" (some 5))
        ≠ some "pinecone text" := by
  refine ⟨by decide, by decide⟩

/-- The batch-result row matching `c8_hit`, storing the sentinel text. -/
def c8_row : DbRow :=
  ⟨"c1", text_sentinel, "DB Title", 2, "fixed", 10, 4, 5, 1, "Book"⟩

/-- C8 witness: a found row with sentinel text is replaced by the carried
text of the hit. -/
theorem c8_witness :
    ((fetch_texts_for_results (.ok [c8_row]) [c8_hit])[0]?
        = some (enrich_with_row c8_hit c8_row))
      ∧ (enrich_with_row c8_hit c8_row).text
        = some (c8_hit.text.getD c8_row.section_title) :=
  (fetch_texts_fallback_behavior "db down" [c8_row] [c8_hit] 0 c8_hit
    (by decide) (by decide)).2.2 c8_row (by decide) (by decide) (by decide)

/-! ### Reranker: C9 -/

/-- C9: with vector score, keyword overlap, title relevance and the
query-term count held fixed, increasing the exact-match count never
decreases the composite score
`0.4·vector + 0.25·(kw/q) + 0.25·(exact/q) + 0.1·(title/q)`,
`q = max(|queryTerms|, 1)`. -/
theorem composite_score_monotone (base_score : ℚ)
    (keyword_overlap exact_matches exact_matches2 title_relevance
      query_word_count : ℕ)
    (h : exact_matches ≤ exact_matches2) :
    composite_score base_score keyword_overlap exact_matches
        title_relevance query_word_count
      ≤ composite_score base_score keyword_overlap exact_matches2
        title_relevance query_word_count := by
  unfold composite_score
  have hM : (0 : ℚ) < ((max query_word_count 1 : ℕ) : ℚ) := by
    have h1 : (1 : ℕ) ≤ max query_word_count 1 := le_max_right _ _
    exact_mod_cast Nat.lt_of_lt_of_le Nat.zero_lt_one h1
  have hdiv : ((exact_matches : ℚ) / ((max query_word_count 1 : ℕ) : ℚ))
      ≤ ((exact_matches2 : ℚ) / ((max query_word_count 1 : ℕ) : ℚ)) :=
    (div_le_div_iff_of_pos_right hM).2 (by exact_mod_cast h)
  have hmul := mul_le_mul_of_nonneg_right hdiv
    (by norm_num : (0 : ℚ) ≤ 0.25)
  linarith

/-- C9 witness: the monotonicity instantiated at concrete signal values. -/
theorem c9_witness :
    composite_score (1 / 2) 2 1 2 4 ≤ composite_score (1 / 2) 2 3 2 4 :=
  composite_score_monotone (1 / 2) 2 1 3 2 4 (by decide)

/-! ### Orchestrator frame effect: C10 -/

theorem heap_get_set (st : RAGState) (r : ℕ) (v : List RRes)
    (hr : r < st.heap.length) : heap_get (heap_set st r v) r = v := by
  unfold heap_get heap_set
  simp [List.getD_eq_getElem?_getD, List.getElem?_set_self, hr]

/-- C10: `rerank_results` is not read-only on its argument — it writes
the four signal keys into every result dict and sorts the list in place,
returning the top-k slice of the same mutated list.  Because
`search_only` stores the very list object in the search-result cache, a
`generate_answer` call that reranks cached results also mutates the
cached entry: afterwards the cached list is the sorted, key-extended
list, different from the list that was cached. -/
theorem rerank_mutates_cached_results (pipeline : List RRes)
    (query : String) (author_ids : List ℕ) (max_chunks now ref ts : ℕ)
    (st : RAGState) (L : List RRes)
    (hc : st.search_cache.lookup (search_key query author_ids
      (max (max_chunks * 2) 16)) = some (ref, ts))
    (hts : now - ts < 3600)
    (href : ref < st.heap.length)
    (hL : heap_get st ref = L)
    (hun : ∃ r ∈ L, r.composite_score = none) :
    heap_get (generate_answer_retrieval pipeline query author_ids
        max_chunks now st).2 ref
        = (L.map (add_signals query)).insertionSort comp_ge
      ∧ heap_get (generate_answer_retrieval pipeline query author_ids
          max_chunks now st).2 ref ≠ L
      ∧ (generate_answer_retrieval pipeline query author_ids max_chunks
          now st).1
        = ((L.map (add_signals query)).insertionSort comp_ge).take
            max_chunks
      ∧ ∀ r ∈ heap_get (generate_answer_retrieval pipeline query
          author_ids max_chunks now st).2 ref,
          r.composite_score.isSome ∧ r.keyword_overlap.isSome
            ∧ r.exact_matches.isSome ∧ r.title_relevance.isSome := by
  have hlk : cache_lookup st (search_key query author_ids
      (max (max_chunks * 2) 16)) now = some ref := by
    unfold cache_lookup
    rw [hc]
    simp [hts]
  have hso : search_only pipeline query author_ids
      (max (max_chunks * 2) 16) now st = (ref, st) := by
    unfold search_only
    rw [hlk]
  have hne : L ≠ [] := by
    rcases hun with ⟨r, hr, -⟩
    intro h
    subst h
    simp at hr
  have hall : ∀ x ∈ (L.map (add_signals query)).insertionSort comp_ge,
      x.composite_score.isSome ∧ x.keyword_overlap.isSome
        ∧ x.exact_matches.isSome ∧ x.title_relevance.isSome := by
    intro x hx
    have hx2 : x ∈ L.map (add_signals query) :=
      (List.perm_insertionSort comp_ge _).mem_iff.1 hx
    obtain ⟨y, -, rfl⟩ := List.mem_map.1 hx2
    simp [add_signals]
  have hmain : generate_answer_retrieval pipeline query author_ids
      max_chunks now st
      = (((L.map (add_signals query)).insertionSort comp_ge).take
          max_chunks,
        heap_set st ref ((L.map (add_signals query)).insertionSort
          comp_ge)) := by
    unfold generate_answer_retrieval
    rw [hso]
    simp only [hL, if_neg hne]
    rfl
  rw [hmain]
  have hget : heap_get (heap_set st ref ((L.map (add_signals
      query)).insertionSort comp_ge)) ref
      = (L.map (add_signals query)).insertionSort comp_ge :=
    heap_get_set st ref _ href
  refine ⟨hget, ?_, rfl, ?_⟩
  · rw [hget]
    intro heq
    rcases hun with ⟨r, hr, hnone⟩
    have hrs : r ∈ (L.map (add_signals query)).insertionSort comp_ge := by
      rw [heq]
      exact hr
    have := (hall r hrs).1
    rw [hnone] at this
    simp at this
  · rw [hget]
    exact hall

/-- Cached, not yet reranked search hit for the C10 witness. -/
def c10_res : RRes :=
  ⟨"id1", 1, "some text", "Title", 3, none, none, none, none⟩

/-- State whose cache maps the key for query `q`, author set `[1]` and
the answer-path limit 16 to the heap object `[c10_res]`. -/
def c10_state : RAGState :=
  ⟨[[c10_res]], [(search_key "q" [1] 16, 0, 0)]⟩

/-- C10 witness: the frame-effect theorem instantiated at a concrete
cached state. -/
theorem c10_witness :
    heap_get (generate_answer_retrieval [] "q" [1] 5 100 c10_state).2 0
        = ([c10_res].map (add_signals "q")).insertionSort comp_ge
      ∧ heap_get (generate_answer_retrieval [] "q" [1] 5 100
          c10_state).2 0 ≠ [c10_res]
      ∧ (generate_answer_retrieval [] "q" [1] 5 100 c10_state).1
        = (([c10_res].map (add_signals "q")).insertionSort comp_ge).take 5
      ∧ ∀ r ∈ heap_get (generate_answer_retrieval [] "q" [1] 5 100
          c10_state).2 0,
          r.composite_score.isSome ∧ r.keyword_overlap.isSome
            ∧ r.exact_matches.isSome ∧ r.title_relevance.isSome :=
  rerank_mutates_cached_results [] "q" [1] 5 100 0 0 c10_state [c10_res]
    (by decide) (by decide) (by decide) (by decide) (by decide)

end BooksRag
